import Mathlib

/-!
Verification development for the pegnetd JSON-RPC method handlers
(`srv/methods.go`).  The handlers are embedded shallowly: every call to an
external collaborator (the pegnet SQL store, the factom client, the
configuration) is an explicit input of the embedded function, and the
handler's `interface{}` return value becomes an explicit outcome type.

The file follows the second revision of `methods.go` (the one containing
`getRichList`, `getTransactions` and `getTransactionStatus`), which is the
revision the line references of the specification point at.
-/

/-- The structured JSON-RPC error values returned by the handlers:
`jrpc.InvalidParams(...)` with its cause text, `ErrorTokenNotFound`,
`ErrorTransactionNotFound`, `ErrorNotFound`, `ErrorAddressNotFound`,
`ErrorNoEC`, `ErrorInvalidTransaction` with its `Data` cause text, and
`jsonrpc2.InternalError` (the opaque internal error, which is also what the
transport reports to the caller when a handler panics — the first revision
of the source annotates every such `panic(err)` with
`// Defer to internal error`). -/
inductive RpcError where
  | invalidParams (cause : String)
  | tokenNotFound
  | transactionNotFound
  | notFound
  | addressNotFound
  | noEC
  | invalidTransaction (cause : String)
  | internal
deriving DecidableEq

/-- Modelled from the spec: the asset tickers are an enumerated symbol set
with a distinguished USD reference ticker, "defined by a fixed registry"
(`fat2.PTicker`, a file of this repository that is not under `src/`).  A
representative fixed registry is used; the properties proved below depend
only on the registry being fixed and its canonical symbols being distinct. -/
inductive PTicker where
  | PEG
  | pUSD
  | pEUR
  | pJPY
  | pGBP
  | pBTC
  | pETH
  | pFCT
  | pXAU
  | pXAG
deriving DecidableEq

/-- Modelled from the spec: the ticker's canonical string symbol,
`fat2.PTicker.String()` (repository code not under `src/`). -/
def PTicker.toString : PTicker → String
  | .PEG => "PEG"
  | .pUSD => "pUSD"
  | .pEUR => "pEUR"
  | .pJPY => "pJPY"
  | .pGBP => "pGBP"
  | .pBTC => "pBTC"
  | .pETH => "pETH"
  | .pFCT => "pFCT"
  | .pXAU => "pXAU"
  | .pXAG => "pXAG"

/-- The fixed ticker registry. -/
def allPTickers : List PTicker :=
  [.PEG, .pUSD, .pEUR, .pJPY, .pGBP, .pBTC, .pETH, .pFCT, .pXAU, .pXAG]

/-- Modelled from the spec: `fat2.PTicker.UnmarshalJSON` (repository code
not under `src/`) maps a canonical string symbol back to its ticker and
"must reject unrecognized symbols". -/
def pTickerFromString (s : String) : Option PTicker :=
  allPTickers.find? (fun t => t.toString == s)

/-- `ResultPegnetTickerMap.MarshalJSON`: the ticker-keyed map is emitted as
a string-keyed map, each key being the ticker's canonical symbol
(`strMap[ticker.String()] = balance`).  The Go map is modelled as an
association list. -/
def tickerMapMarshalJSON (m : List (PTicker × Nat)) : List (String × Nat) :=
  m.map (fun kv => (kv.1.toString, kv.2))

/-- `ResultPegnetTickerMap.UnmarshalJSON`: every string key is decoded back
into a ticker via `PTicker.UnmarshalJSON`; the first unrecognized symbol
aborts decoding with an error (the error value carries the offending
symbol, standing for the decoder's message text). -/
def tickerMapUnmarshalJSON : List (String × Nat) → Except String (List (PTicker × Nat))
  | [] => .ok []
  | (s, b) :: rest =>
    match pTickerFromString s with
    | none => .error s
    | some t =>
      match tickerMapUnmarshalJSON rest with
      | .error e => .error e
      | .ok tail => .ok ((t, b) :: tail)

/-- Factoid addresses (`factom.FAAddress`) are opaque to the handlers;
modelled as strings. -/
abbrev FAAddress := String

/-- Go map indexing `rates[k]` with its zero default for a missing key. -/
def lookupRate (rates : List (PTicker × Nat)) (t : PTicker) : Nat :=
  match rates.find? (fun kv => kv.1 == t) with
  | some kv => kv.2
  | none => 0

/-- The per-address accumulation loop body of `getRichList`: for every
`(ticker, amount)` pair of the address's balance map,
`tmp, _ := conversions.Convert(int64(v), rates[k], rates[USD])` is added to
the running `usd` total (the conversion error is discarded by the source).
`conversions.Convert` lives in the external `pegnet/modules/conversions`
module and is therefore a parameter `convert`. -/
def addrUSD (rates : List (PTicker × Nat)) (convert : Int → Nat → Nat → Int)
    (balance : List (PTicker × Nat)) : Int :=
  balance.foldl
    (fun acc kv =>
      acc + convert (Int.ofNat kv.2) (lookupRate rates kv.1) (lookupRate rates PTicker.pUSD))
    0

/-- The `for _, a := range addrs` loop of `getRichList`: fetch the balance
map of each address (an error aborts the whole handler with that error),
accumulate its USD value, and skip the address when the accumulated total
is exactly zero (`if usd == 0 { continue }`). -/
def richLoop (rates : List (PTicker × Nat)) (convert : Int → Nat → Nat → Int)
    (balanceOf : FAAddress → Except String (List (PTicker × Nat))) :
    List FAAddress → Except String (List (FAAddress × Int))
  | [] => .ok []
  | a :: rest =>
    match balanceOf a with
    | .error e => .error e
    | .ok balance =>
      if addrUSD rates convert balance = 0 then
        richLoop rates convert balanceOf rest
      else
        match richLoop rates convert balanceOf rest with
        | .error e => .error e
        | .ok tail => .ok ((a, addrUSD rates convert balance) :: tail)

/-- Descending order on rich-list entries: the later entry's USD value is at
most the earlier one's.  This is the postcondition order of the source's
`sort.Slice(res.Top100, func(i, j int) bool { return ...[i].USDEquiv > ...[j].USDEquiv })`.
USD values are kept in the integer form `usd` (units of 1e-8 USD); the
source's final rendering `float64(usd) / 1e8` is weakly monotone and sends
exactly `usd = 0` to `0`, so order and zeroness are preserved. -/
def richLE (x y : FAAddress × Int) : Prop := y.2 ≤ x.2

instance : DecidableRel richLE := fun x y => Int.decLe y.2 x.2

instance : IsTotal (FAAddress × Int) richLE := ⟨fun a b => Int.le_total b.2 a.2⟩

instance : IsTrans (FAAddress × Int) richLE := ⟨fun _ _ _ hab hbc => le_trans hbc hab⟩

/-- The source's `sort.Slice` by strictly-descending USD value, modelled as
a sort producing a permutation ordered by `richLE`. -/
def sortRichDesc (l : List (FAAddress × Int)) : List (FAAddress × Int) :=
  List.insertionSort richLE l

/-- `ResultGetRichList`. -/
structure ResultGetRichList where
  height : Nat
  top100 : List (FAAddress × Int)
deriving DecidableEq

/-- The three result shapes `getRichList` can return through its
`interface{}` slot: an error value (`return err` for the address-list or
balance fetches), the raw rates map (the `return rates` branch taken when
the rate fetch fails), or the `ResultGetRichList` success. -/
inductive RichListOutcome where
  | storeError (e : String)
  | ratesValue (rates : List (PTicker × Nat))
  | ok (res : ResultGetRichList)
deriving DecidableEq

/-- Whether a `getRichList` outcome is an error value (the only outcome the
JSON-RPC layer reports as an error rather than a success result). -/
def richListIsError : RichListOutcome → Bool
  | .storeError _ => true
  | _ => false

/-- `getRichList`.  Collaborator calls become inputs: `height` is
`s.Node.GetCurrentSync()`, `addrsRes` is `SelectAddresses()`, the pair
`(rates, ratesErr)` is the two-valued return of `SelectRates(nil, height)`,
`balanceOf` is `SelectBalances`.  Note the rate-fetch failure branch
returns `rates` (the map value), exactly as the source's `return rates`
does — its siblings return `err`. -/
def getRichList (height : Nat) (addrsRes : Except String (List FAAddress))
    (rates : List (PTicker × Nat)) (ratesErr : Option String)
    (balanceOf : FAAddress → Except String (List (PTicker × Nat)))
    (convert : Int → Nat → Nat → Int) : RichListOutcome :=
  match addrsRes with
  | .error e => .storeError e
  | .ok addrs =>
    match ratesErr with
    | some _ => .ratesValue rates
    | none =>
      match richLoop rates convert balanceOf addrs with
      | .error e => .storeError e
      | .ok entries =>
        let sorted := sortRichDesc entries
        .ok ⟨height, if sorted.length > 100 then sorted.take 100 else sorted⟩

/-- `ResultGetTransactions`: the page of matched actions, the total number
of matching actions, and the next-page offset (0 meaning no more pages).
The action element type is abstract — the handler never inspects it. -/
structure ResultGetTransactions (α : Type) where
  actions : List α
  count : Int
  nextOffset : Int
deriving DecidableEq

/-- `getTransactions` after parameter decoding: `validationRes` is the
verdict of `validate` (`some e` meaning the error `e` was returned),
`offset` is `params.Offset`, and `storeRes` is the `(actions, count, err)`
triple of whichever of the three `SelectTransactionHistoryActionsBy...`
store queries the selector picked.  A store error is wrapped into
`jrpc.InvalidParams(err.Error())`; an empty action list becomes
`ErrorTransactionNotFound`; otherwise `NextOffset` is
`params.Offset + len(actions)` when that sum is strictly below `count`,
and keeps its zero value otherwise. -/
def getTransactions {α : Type} (validationRes : Option RpcError) (offset : Int)
    (storeRes : Except String (List α × Int)) :
    Except RpcError (ResultGetTransactions α) :=
  match validationRes with
  | some e => .error e
  | none =>
    match storeRes with
    | .error msg => .error (.invalidParams msg)
    | .ok (actions, count) =>
      if actions.length = 0 then .error .transactionNotFound
      else
        .ok ⟨actions, count,
          if offset + (actions.length : Int) < count then offset + (actions.length : Int)
          else 0⟩

/-- `ResultGetTransactionStatus`: containing block height and the height at
which the transaction was executed. -/
structure ResultGetTransactionStatus where
  height : Nat
  executed : Nat
deriving DecidableEq

/-- `getTransactionStatus` after parameter decoding: `storeRes` is the
`(height, executed, err)` triple returned by
`SelectTransactionHistoryStatus(params.Hash)`.  A store error is wrapped
into `jrpc.InvalidParams(err.Error())`; a reported height of 0 becomes
`ErrorTransactionNotFound`; otherwise the `(height, executed)` pair is the
result. -/
def getTransactionStatus (validationRes : Option RpcError)
    (storeRes : Except String (Nat × Nat)) :
    Except RpcError ResultGetTransactionStatus :=
  match validationRes with
  | some e => .error e
  | none =>
    match storeRes with
    | .error msg => .error (.invalidParams msg)
    | .ok (h, ex) =>
      if h = 0 then .error .transactionNotFound
      else .ok ⟨h, ex⟩

/-- Modelled from the spec: a ledger entry as built by
`ParamsSendTransaction.Entry()` (repository code not under `src/`) — the
entry's contents, namely its content bytes and its external-id byte
lists. -/
structure Entry where
  content : List Nat
  extIDs : List (List Nat)
deriving DecidableEq

/-- One step of the deterministic content hash. -/
def hashStep (h b : Nat) : Nat := h * 257 + b + 1

/-- Modelled from the spec: the entry hash is "content-addressed,
deterministic from the entry's contents" (computed by the external factom
library).  Any fixed function of the contents carries the properties proved
here; a simple fold is used. -/
def entryHash (e : Entry) : Nat :=
  e.extIDs.foldl (fun h x => x.foldl hashStep h) (e.content.foldl hashStep 7)

/-- Modelled from the spec: `ParamsSendTransaction` (repository code not
under `src/`) carries the action payload from which the entry is built and
the dry-run flag. -/
structure ParamsSendTransaction where
  dryRun : Bool
  entry : Entry
deriving DecidableEq

/-- `node.TransactionChain`, the single recognized transaction-ledger
identifier (repository code not under `src/`; its concrete value is
irrelevant to the handlers). -/
def transactionChain : Nat := 0

/-- The anonymous result struct of `sendTransaction`:
`{ChainID, TxID (omitted on dry run), Hash}`. -/
structure ResultSendTransaction where
  chainID : Nat
  txID : Option Nat
  hash : Nat
deriving DecidableEq

/-- `sendTransaction`.  Collaborator calls become inputs: `validationRes`
is the verdict of `validate`; `ecKeyOk` tells whether the configured EC
private key parsed (`ecPrivateKey.Set`; failure returns
`jsonrpc2.InternalError`); `balanceRes` is
`ecPrivateKey.ECAddress().GetBalance(...)` (failure panics, which the
transport reports as the opaque internal error, per the source annotation
`// Defer to internal error`); `costRes` is `entry.Cost(false)` (failure
returns `ErrorInvalidTransaction` carrying the cause); `composeRes` is
`entry.ComposeCreate(...)` (failure panics likewise).  When
`params.DryRun` is set the whole funded path is skipped and `TxID` stays
nil.  The entry is bound to `node.TransactionChain` and its hash is
returned in every success. -/
def sendTransaction (validationRes : Option RpcError) (ecKeyOk : Bool)
    (p : ParamsSendTransaction) (balanceRes : Except String Nat)
    (costRes : Except String Nat) (composeRes : Except String Nat) :
    Except RpcError ResultSendTransaction :=
  match validationRes with
  | some e => .error e
  | none =>
    if ecKeyOk then
      if p.dryRun then .ok ⟨transactionChain, none, entryHash p.entry⟩
      else
        match balanceRes with
        | .error _ => .error .internal
        | .ok balance =>
          match costRes with
          | .error cause => .error (.invalidTransaction cause)
          | .ok cost =>
            if balance < cost then .error .noEC
            else
              match composeRes with
              | .error _ => .error .internal
              | .ok txID => .ok ⟨transactionChain, some txID, entryHash p.entry⟩
    else .error .internal

/-- The cause text of the `jrpc.InvalidParams` error returned when a
method that declares no parameters receives a payload. -/
def noParamsAccepted : String := "no params accepted"

/-- Modelled from the spec: the strict JSON decoding of `unmarshalStrict`
(`json.Decoder.DisallowUnknownFields` of the Go standard library) rejects
"any field name not part of the declared schema".  The payload object is
modelled by its list of field names and the parameter type by its list of
declared field names; the error carries the offending field name, standing
for the decoder's message text. -/
def unmarshalStrict (schema : List String) (fields : List String) : Except String Unit :=
  match fields.find? (fun f => !(schema.contains f)) with
  | some f => .error f
  | none => .ok ()

/-- `validate`.  `schema` is `none` for a method declaring no parameter
type (a non-empty payload is then rejected) and `some sch` otherwise.
`isValidZero` and `isValid` are the verdicts of `params.IsValid()` on the
zero-valued parameter object (empty payload) and on the decoded one;
`chainID` is `params.ValidChainID()`, which must equal
`node.TransactionChain` when present. -/
def validate (schema : Option (List String)) (fields : List String)
    (isValidZero : Option RpcError) (isValid : Option RpcError)
    (chainID : Option Nat) : Option RpcError :=
  match schema with
  | none =>
    if fields.length > 0 then some (.invalidParams noParamsAccepted) else none
  | some sch =>
    if fields.length = 0 then isValidZero
    else
      match unmarshalStrict sch fields with
      | .error msg => some (.invalidParams msg)
      | .ok _ =>
        match isValid with
        | some e => some e
        | none =>
          match chainID with
          | some c => if c ≠ transactionChain then some .tokenNotFound else none
          | none => none

/-! ## Theorems -/

/-- Claim C6: a get-transactions request that passes validation and whose
history lookup succeeds but matches zero actions yields the
transaction-not-found error, not an empty success result. -/
theorem getTransactions_zero_matches_not_found {α : Type} (offset count : Int) :
    getTransactions none offset (.ok (([] : List α), count)) =
      .error .transactionNotFound := by
  simp [getTransactions]

/-- Claim C10: when the store reports a containing block height of 0,
get-transaction-status returns the transaction-not-found error — the same
outcome regardless of the reported executed value, so a transaction
recorded at height 0 is indistinguishable from a missing one — and every
successful result has height strictly greater than 0. -/
theorem getTransactionStatus_zero_height_not_found (executed : Nat)
    (storeRes : Except String (Nat × Nat)) (r : ResultGetTransactionStatus)
    (hok : getTransactionStatus none storeRes = .ok r) :
    getTransactionStatus none (.ok (0, executed)) = .error .transactionNotFound ∧
    0 < r.height := by
  refine ⟨by simp [getTransactionStatus], ?_⟩
  match storeRes with
  | .error msg => simp [getTransactionStatus] at hok
  | .ok (h, ex) =>
    by_cases hz : h = 0
    · simp [getTransactionStatus, hz] at hok
    · simp [getTransactionStatus, hz] at hok
      rw [← hok]
      exact Nat.pos_of_ne_zero hz

/-- Concrete instance of `getTransactionStatus_zero_height_not_found` at a
store answer of height 5. -/
theorem getTransactionStatus_zero_height_not_found_witness :
    getTransactionStatus none (.ok (0, 0)) = .error .transactionNotFound ∧
    0 < (⟨5, 1⟩ : ResultGetTransactionStatus).height :=
  getTransactionStatus_zero_height_not_found 0 (.ok (5, 1)) ⟨5, 1⟩ rfl

/-- The cause text of the rate-fetch failure used in the concrete rich-list
evaluations. -/
def msgNoRates : String := "no rates found"

/-- Claim C5 (code bug): when the rate fetch for the current height fails,
`getRichList` executes `return rates` and hands the raw (here empty) rates
map back as a success-shaped result instead of failing with an error; the
returned outcome is not an error value. -/
theorem getRichList_rates_error_returns_rates_map :
    getRichList 10 (.ok []) [] (some msgNoRates) (fun _ => .ok []) (fun v _ _ => v) =
      .ratesValue [] ∧
    richListIsError (.ratesValue []) = false := by
  exact ⟨rfl, rfl⟩

/-- Claim C1: whenever get-transactions matches at least one action (so a
success result is produced), its next offset is exactly
`offset + returned` when that sum is strictly below the total count and the
0 sentinel otherwise; consequently, under the store-consistency assumption
that the returned page does not extend past the total count, for any offset
strictly below the count the next offset is either strictly greater than
the offset and at most the count, or the 0 sentinel, the latter exactly
when `offset + returned = count`. -/
theorem getTransactions_nextOffset_pagination {α : Type} (offset count : Int)
    (actions : List α) (r : ResultGetTransactions α)
    (hres : getTransactions none offset (.ok (actions, count)) = .ok r) :
    (r.nextOffset =
      if offset + (actions.length : Int) < count then offset + (actions.length : Int)
      else 0) ∧
    (0 ≤ offset → offset < count → offset + (actions.length : Int) ≤ count →
      ((offset < r.nextOffset ∧ r.nextOffset ≤ count) ∨ r.nextOffset = 0) ∧
      (r.nextOffset = 0 ↔ offset + (actions.length : Int) = count)) := by
  by_cases hlen : actions.length = 0
  · simp [getTransactions, hlen] at hres
  · simp only [getTransactions, hlen, if_false] at hres
    have hr : r = ⟨actions, count,
        if offset + (actions.length : Int) < count then offset + (actions.length : Int)
        else 0⟩ := by
      cases hres
      rfl
    subst hr
    have hpos : (1 : Int) ≤ (actions.length : Int) := by
      exact_mod_cast Nat.one_le_iff_ne_zero.mpr hlen
    refine ⟨rfl, ?_⟩
    intro h0 hoc hsum
    by_cases hlt : offset + (actions.length : Int) < count
    · constructor
      · left
        refine ⟨?_, ?_⟩
        · simp only [hlt, if_true]
          omega
        · simp only [hlt, if_true]
          omega
      · simp only [hlt, if_true]
        constructor
        · intro hzero
          omega
        · intro heq
          omega
    · have heq : offset + (actions.length : Int) = count := le_antisymm hsum (not_lt.mp hlt)
      constructor
      · right
        simp [hlt]
      · simp [hlt, heq]

/-- Concrete instance of `getTransactions_nextOffset_pagination`: one
action returned at offset 0 out of two. -/
theorem getTransactions_nextOffset_pagination_witness :
    (((0 : Int) < (⟨[()], 2, 1⟩ : ResultGetTransactions Unit).nextOffset ∧
      (⟨[()], 2, 1⟩ : ResultGetTransactions Unit).nextOffset ≤ 2) ∨
      (⟨[()], 2, 1⟩ : ResultGetTransactions Unit).nextOffset = 0) ∧
    ((⟨[()], 2, 1⟩ : ResultGetTransactions Unit).nextOffset = 0 ↔
      (0 : Int) + (([()] : List Unit).length : Int) = 2) :=
  (getTransactions_nextOffset_pagination 0 2 [()] ⟨[()], 2, 1⟩ rfl).2
    (by decide) (by decide) (by decide)

/-- A concrete cost-computation failure cause used in witnesses. -/
def msgBadEntry : String := "malformed entry"

/-- A concrete balance-lookup failure cause used in witnesses. -/
def msgBalanceDown : String := "balance lookup failed"

/-- A concrete submission failure cause used in witnesses. -/
def msgSubmitDown : String := "compose create failed"

/-- A concrete entry used in witnesses. -/
def entryA : Entry := ⟨[1, 2, 3], [[4]]⟩

/-- Claim C2: in send-transaction without dry-run, a failing cost
computation yields the invalid-transaction error carrying the underlying
cause, while a successful cost computation with a funding balance strictly
below the cost yields the insufficient-funding error — whatever the
submission collaborator would answer, so the entry is never submitted —
and the two errors are distinct. -/
theorem sendTransaction_cost_error_then_insufficient_funding
    (p : ParamsSendTransaction) (hdr : p.dryRun = false) (balance cost : Nat)
    (cause : String) (composeRes composeRes' : Except String Nat)
    (hlt : balance < cost) :
    sendTransaction none true p (.ok balance) (.error cause) composeRes' =
      .error (.invalidTransaction cause) ∧
    sendTransaction none true p (.ok balance) (.ok cost) composeRes =
      .error .noEC ∧
    RpcError.invalidTransaction cause ≠ RpcError.noEC := by
  refine ⟨by simp [sendTransaction, hdr], by simp [sendTransaction, hdr, hlt], by simp⟩

/-- Concrete instance of
`sendTransaction_cost_error_then_insufficient_funding` with balance 1 and
cost 2. -/
theorem sendTransaction_cost_error_then_insufficient_funding_witness :
    sendTransaction none true ⟨false, entryA⟩ (.ok 1) (.error msgBadEntry) (.ok 9) =
      .error (.invalidTransaction msgBadEntry) ∧
    sendTransaction none true ⟨false, entryA⟩ (.ok 1) (.ok 2) (.ok 9) =
      .error .noEC ∧
    RpcError.invalidTransaction msgBadEntry ≠ RpcError.noEC :=
  sendTransaction_cost_error_then_insufficient_funding ⟨false, entryA⟩ rfl 1 2
    msgBadEntry (.ok 9) (.ok 9) (by decide)

/-- Claim C3: a valid dry-run send-transaction returns the success result
whose transaction identifier is absent, whose ledger identifier is the
single recognized transaction chain and whose entry hash is the
deterministic hash of the entry contents; the outcome is identical for all
possible answers of the funding-balance, cost and submission
collaborators (none of them is consulted), and any two dry-run requests
with the same entry payload produce the same result. -/
theorem sendTransaction_dryRun_skips_collaborators
    (p q : ParamsSendTransaction) (hp : p.dryRun = true) (hq : q.dryRun = true)
    (hent : q.entry = p.entry)
    (b b' c c' s s' : Except String Nat) :
    sendTransaction none true p b c s =
      .ok ⟨transactionChain, none, entryHash p.entry⟩ ∧
    sendTransaction none true p b c s = sendTransaction none true p b' c' s' ∧
    sendTransaction none true q b c s = sendTransaction none true p b c s := by
  refine ⟨by simp [sendTransaction, hp], by simp [sendTransaction, hp], ?_⟩
  simp [sendTransaction, hp, hq, hent]

/-- Concrete instance of `sendTransaction_dryRun_skips_collaborators`:
two dry-run requests with the same entry payload, under differing
collaborator answers. -/
theorem sendTransaction_dryRun_skips_collaborators_witness :
    sendTransaction none true ⟨true, entryA⟩ (.ok 0) (.error msgBadEntry) (.ok 9) =
      .ok ⟨transactionChain, none, entryHash entryA⟩ ∧
    sendTransaction none true ⟨true, entryA⟩ (.ok 0) (.error msgBadEntry) (.ok 9) =
      sendTransaction none true ⟨true, entryA⟩ (.error msgBalanceDown) (.ok 3) (.error msgSubmitDown) ∧
    sendTransaction none true ⟨true, entryA⟩ (.ok 0) (.error msgBadEntry) (.ok 9) =
      sendTransaction none true ⟨true, entryA⟩ (.ok 0) (.error msgBadEntry) (.ok 9) :=
  sendTransaction_dryRun_skips_collaborators ⟨true, entryA⟩ ⟨true, entryA⟩ rfl rfl rfl
    (.ok 0) (.error msgBalanceDown) (.error msgBadEntry) (.ok 3) (.ok 9) (.error msgSubmitDown)

/-- Claim C8: in send-transaction without dry-run, an unexpected failure of
the external client during the funding-balance lookup — whatever the later
cost and submission answers would have been — or during submission is
reported as the opaque internal error (the handler panics and the
transport, per the source annotation, answers with the internal error
marker, which carries no detail and never takes the process down). -/
theorem sendTransaction_unexpected_failures_internal
    (p : ParamsSendTransaction) (hdr : p.dryRun = false)
    (bmsg smsg : String) (balance cost : Nat) (hcov : cost ≤ balance)
    (costRes composeRes : Except String Nat) :
    sendTransaction none true p (.error bmsg) costRes composeRes =
      .error .internal ∧
    sendTransaction none true p (.ok balance) (.ok cost) (.error smsg) =
      .error .internal := by
  refine ⟨by simp [sendTransaction, hdr], ?_⟩
  simp [sendTransaction, hdr, Nat.not_lt.mpr hcov]

/-- Concrete instance of `sendTransaction_unexpected_failures_internal`
with balance 5 and cost 2. -/
theorem sendTransaction_unexpected_failures_internal_witness :
    sendTransaction none true ⟨false, entryA⟩ (.error msgBalanceDown) (.ok 2) (.ok 9) =
      .error .internal ∧
    sendTransaction none true ⟨false, entryA⟩ (.ok 5) (.ok 2) (.error msgSubmitDown) =
      .error .internal :=
  sendTransaction_unexpected_failures_internal ⟨false, entryA⟩ rfl msgBalanceDown
    msgSubmitDown 5 2 (by decide) (.ok 2) (.ok 9)

/-- Claim C7: when the non-empty payload of a method that declares a
parameter type contains a field name outside the declared schema, strict
decoding fails and `validate` answers with an invalid-params error —
whatever the semantic-validation verdicts and chain identifier would have
been — and a handler receiving such a validation error returns it without
consulting its store (shown on the get-transaction-status handler, whose
store answer is arbitrary). -/
theorem validate_rejects_unknown_field (sch fields : List String)
    (isValidZero isValid : Option RpcError) (chainID : Option Nat)
    (f : String) (hf : f ∈ fields) (hun : f ∉ sch) :
    (∃ msg, validate (some sch) fields isValidZero isValid chainID =
      some (.invalidParams msg)) ∧
    (∀ e, validate (some sch) fields isValidZero isValid chainID = some e →
      ∀ storeRes : Except String (Nat × Nat),
        getTransactionStatus (some e) storeRes = .error e) := by
  have hne : fields ≠ [] := List.ne_nil_of_mem hf
  have hlen : ¬fields.length = 0 := by simpa [List.length_eq_zero] using hne
  have hfind : ∃ g, unmarshalStrict sch fields = .error g := by
    unfold unmarshalStrict
    cases hcase : fields.find? (fun x => !(sch.contains x)) with
    | some g => exact ⟨g, rfl⟩
    | none =>
      have hall := List.find?_eq_none.mp hcase f hf
      simp at hall
      exact absurd hall hun
  obtain ⟨g, hg⟩ := hfind
  constructor
  · refine ⟨g, ?_⟩
    simp [validate, hg, hlen]
  · intro e he storeRes
    simp [getTransactionStatus]

/-- The schema field name used in the concrete validation instance. -/
def fieldHash : String := "hash"

/-- The unknown field name used in the concrete validation instance. -/
def fieldBogus : String := "bogus"

/-- Concrete instance of `validate_rejects_unknown_field`: a payload with
fields hash and bogus against a schema declaring only hash. -/
theorem validate_rejects_unknown_field_witness :
    (∃ msg, validate (some [fieldHash]) [fieldHash, fieldBogus] none none none =
      some (.invalidParams msg)) ∧
    (∀ e, validate (some [fieldHash]) [fieldHash, fieldBogus] none none none = some e →
      ∀ storeRes : Except String (Nat × Nat),
        getTransactionStatus (some e) storeRes = .error e) :=
  validate_rejects_unknown_field [fieldHash] [fieldHash, fieldBogus] none none none
    fieldBogus (by simp) (by decide)

/-- Every ticker's canonical symbol decodes back to that ticker. -/
theorem pTickerFromString_toString (t : PTicker) :
    pTickerFromString t.toString = some t := by
  cases t <;> rfl

/-- Decoding inverts encoding on ticker-keyed maps. -/
theorem tickerMapUnmarshal_marshal (m : List (PTicker × Nat)) :
    tickerMapUnmarshalJSON (tickerMapMarshalJSON m) = .ok m := by
  induction m with
  | nil => rfl
  | cons kv rest ih =>
    obtain ⟨t, b⟩ := kv
    simp only [tickerMapMarshalJSON, List.map_cons] at ih ⊢
    simp [tickerMapUnmarshalJSON, pTickerFromString_toString, ih]

/-- A wire map containing an unrecognized symbol fails to decode. -/
theorem tickerMapUnmarshal_reject (wire : List (String × Nat))
    (h : ∃ p ∈ wire, pTickerFromString p.1 = none) :
    ∃ msg, tickerMapUnmarshalJSON wire = .error msg := by
  induction wire with
  | nil => simp at h
  | cons q rest ih =>
    obtain ⟨s, b⟩ := q
    obtain ⟨p, hp, hbad⟩ := h
    rcases List.mem_cons.mp hp with hhead | htail
    · subst hhead
      exact ⟨s, by simp [tickerMapUnmarshalJSON, hbad]⟩
    · cases hts : pTickerFromString s with
      | none => exact ⟨s, by simp [tickerMapUnmarshalJSON, hts]⟩
      | some t =>
        obtain ⟨msg, hmsg⟩ := ih ⟨p, htail, hbad⟩
        exact ⟨msg, by simp [tickerMapUnmarshalJSON, hts, hmsg]⟩

/-- Claim C9: encoding a ticker-keyed mapping to its string-keyed wire form
and decoding it back yields the original mapping; the wire keys are exactly
the tickers' canonical string symbols; and decoding a wire form containing
an unrecognized symbol fails with an error. -/
theorem tickerMap_marshal_roundtrip_and_reject (m : List (PTicker × Nat))
    (wire : List (String × Nat)) (p : String × Nat) (hp : p ∈ wire)
    (hbad : pTickerFromString p.1 = none) :
    tickerMapUnmarshalJSON (tickerMapMarshalJSON m) = .ok m ∧
    (tickerMapMarshalJSON m).map Prod.fst = m.map (fun kv => kv.1.toString) ∧
    ∃ msg, tickerMapUnmarshalJSON wire = .error msg := by
  refine ⟨tickerMapUnmarshal_marshal m, ?_, tickerMapUnmarshal_reject wire ⟨p, hp, hbad⟩⟩
  simp [tickerMapMarshalJSON]

/-- An unrecognized ticker symbol used in the concrete decoding instance. -/
def strBad : String := "XYZ"

/-- Concrete instance of `tickerMap_marshal_roundtrip_and_reject`: a
one-entry PEG map round-trips, and a wire map keyed by an unknown symbol is
rejected. -/
theorem tickerMap_marshal_roundtrip_and_reject_witness :
    tickerMapUnmarshalJSON (tickerMapMarshalJSON [(.PEG, 5)]) = .ok [(.PEG, 5)] ∧
    (tickerMapMarshalJSON [(.PEG, 5)]).map Prod.fst =
      [((.PEG : PTicker), 5)].map (fun kv => kv.1.toString) ∧
    ∃ msg, tickerMapUnmarshalJSON [(strBad, 1)] = .error msg :=
  tickerMap_marshal_roundtrip_and_reject [(.PEG, 5)] [(strBad, 1)] (strBad, 1)
    (by simp) (by decide)

/-- Every entry produced by the rich-list accumulation loop has a nonzero
USD value: zero-valued addresses are skipped. -/
theorem richLoop_ok_nonzero (rates : List (PTicker × Nat))
    (convert : Int → Nat → Nat → Int)
    (balanceOf : FAAddress → Except String (List (PTicker × Nat))) :
    ∀ (addrs : List FAAddress) (entries : List (FAAddress × Int)),
      richLoop rates convert balanceOf addrs = .ok entries →
      ∀ e ∈ entries, e.2 ≠ 0 := by
  intro addrs
  induction addrs with
  | nil =>
    intro entries h e he
    simp only [richLoop] at h
    cases h
    simp at he
  | cons a rest ih =>
    intro entries h e he
    simp only [richLoop] at h
    split at h
    · exact absurd h (by simp)
    · split at h
      · exact ih entries h e he
      · rename_i hz
        split at h
        · exact absurd h (by simp)
        · rename_i tail hr
          injection h with h2
          subst h2
          rcases List.mem_cons.mp he with hhead | htail
          · subst hhead
            exact hz
          · exact ih tail hr e htail

/-- Claim C4: every successful get-rich-list result has at most 100
entries, its USD-equivalent values are non-increasing, and no entry has a
USD-equivalent value of exactly 0. -/
theorem getRichList_result_invariants (height : Nat)
    (addrsRes : Except String (List FAAddress)) (rates : List (PTicker × Nat))
    (ratesErr : Option String)
    (balanceOf : FAAddress → Except String (List (PTicker × Nat)))
    (convert : Int → Nat → Nat → Int) (r : ResultGetRichList)
    (hres : getRichList height addrsRes rates ratesErr balanceOf convert = .ok r) :
    r.top100.length ≤ 100 ∧
    List.Pairwise (fun x y : FAAddress × Int => y.2 ≤ x.2) r.top100 ∧
    ∀ e ∈ r.top100, e.2 ≠ 0 := by
  cases addrsRes with
  | error e => simp [getRichList] at hres
  | ok addrs =>
    cases ratesErr with
    | some err => simp [getRichList] at hres
    | none =>
      cases hr : richLoop rates convert balanceOf addrs with
      | error err => simp [getRichList, hr] at hres
      | ok entries =>
        simp only [getRichList, hr] at hres
        have hrr : r = ⟨height,
            if (sortRichDesc entries).length > 100 then (sortRichDesc entries).take 100
            else sortRichDesc entries⟩ := by
          cases hres
          rfl
        subst hrr
        have hsorted : List.Pairwise richLE (sortRichDesc entries) :=
          List.sorted_insertionSort richLE entries
        have hmem : ∀ e ∈ sortRichDesc entries, e.2 ≠ 0 := by
          intro e he
          exact richLoop_ok_nonzero rates convert balanceOf addrs entries hr e
            ((List.perm_insertionSort richLE entries).mem_iff.mp he)
        by_cases hlen : (sortRichDesc entries).length > 100
        · simp only [hlen, if_true]
          refine ⟨?_, ?_, ?_⟩
          · rw [List.length_take]
            exact min_le_left _ _
          · exact (hsorted.sublist (List.take_sublist _ _)).imp (fun h => h)
          · intro e he
            exact hmem e ((List.take_sublist _ _).subset he)
        · simp only [hlen, if_false]
          exact ⟨Nat.le_of_not_lt hlen, hsorted.imp (fun h => h), hmem⟩

/-- The factoid address used in the concrete rich-list instance. -/
def addrA : FAAddress := "FA1"

/-- Concrete instance of `getRichList_result_invariants`: one address whose
single PEG balance converts to 5. -/
theorem getRichList_result_invariants_witness :
    (⟨3, [(addrA, 5)]⟩ : ResultGetRichList).top100.length ≤ 100 ∧
    List.Pairwise (fun x y : FAAddress × Int => y.2 ≤ x.2)
      (⟨3, [(addrA, 5)]⟩ : ResultGetRichList).top100 ∧
    ∀ e ∈ (⟨3, [(addrA, 5)]⟩ : ResultGetRichList).top100, e.2 ≠ 0 :=
  getRichList_result_invariants 3 (.ok [addrA]) [(.PEG, 1), (.pUSD, 1)] none
    (fun _ => .ok [(.PEG, 5)]) (fun v _ _ => v) ⟨3, [(addrA, 5)]⟩ (by rfl)
